import Mathlib

/-!
# Shallow embedding of the ALPACA LNA Bias System

This file embeds the control logic of the ALPACA LNA bias repository
(`ALPACABias.py`, `BiasBoardControl.py`) as executable Lean definitions and
proves properties of them.

Modelling conventions:
* Python floats are modelled as exact rationals (`ℚ`).  All the numeric
  comparisons the control flow depends on (`val >= 1000.0`,
  `diff < ITOLERANCE`, ...) are far from representation boundaries, so the
  rational model is faithful for the properties proved here.
* Sensor readings are an oracle `meas : ℕ → ℚ` indexed by the order in which
  reads occur (the hardware is outside the program).
* The `while 1` convergence loop of `set_iLNA` / `set_vLNA` increments its
  counter `i` by one on every pass and exits when `i > MAXITER`, so the loop
  always terminates after at most `MAXITER + 1` passes of its body; it is
  embedded as a structurally recursive function on the number of remaining
  passes `rem = MAXITER + 1 - i`.
* I2C traffic is modelled as a trace of bus events so that the repeater-gate
  (open / transact / close) discipline can be stated.
-/

namespace AlpacaBias

/-! ## Constants (from `ALPACABias.py` and `BiasBoardControl.py`) -/

/-- Constant `MAXITER = 256` (`ALPACABias.py`). -/
def MAXITER : ℕ := 256

/-- Constant `ITOLERANCE = 0.05` (`ALPACABias.py`). -/
def ITOLERANCE : ℚ := 5 / 100

/-- Constant `VTOLERANCE = 0.05` (`ALPACABias.py`). -/
def VTOLERANCE : ℚ := 5 / 100

/-- Constant `CURRENT_DIVIDER = 2.7` (`ALPACABias.py`), the divider passed to
every `BiasBoard` by `initialize_boards`. -/
def CURRENT_DIVIDER : ℚ := 27 / 10

/-- Constant `AD5144_CMD_WRITE_RDAC = 0b00010000` (`BiasBoardControl.py`). -/
def AD5144_CMD_WRITE_RDAC : ℕ := 0b00010000

/-- Constant `DIGITALPOT_1_I2C_ADDR = 0b0101111` (`BiasBoardControl.py`). -/
def DIGITALPOT_1_I2C_ADDR : ℕ := 0b0101111

/-- Constant `DIGITALPOT_2_I2C_ADDR = 0b0100011` (`BiasBoardControl.py`). -/
def DIGITALPOT_2_I2C_ADDR : ℕ := 0b0100011

/-- Constant `CURR_SENSE_BASE_I2C_ADDR = 0b1001000` (`BiasBoardControl.py`). -/
def CURR_SENSE_BASE_I2C_ADDR : ℕ := 0b1001000

/-- Constant `PCF8575_BASE_ADDR = 0b0100_000` (`BiasBoardControl.py`). -/
def PCF8575_BASE_ADDR : ℕ := 0b0100000

/-- Constant `INA219_REG_CONFIG = 0x00` (`BiasBoardControl.py`). -/
def INA219_REG_CONFIG : ℕ := 0x00

/-- Constant `INA219_REG_CALIBRATION = 0x05` (`BiasBoardControl.py`). -/
def INA219_REG_CALIBRATION : ℕ := 0x05

/-- Constant `INA219_REG_SHUNTVOLTAGE = 0x01` (`BiasBoardControl.py`). -/
def INA219_REG_SHUNTVOLTAGE : ℕ := 0x01

/-- Constant `INA219_REG_BUSVOLTAGE = 0x02` (`BiasBoardControl.py`). -/
def INA219_REG_BUSVOLTAGE : ℕ := 0x02

/-- Constant `INA219_REG_POWER = 0x03` (`BiasBoardControl.py`). -/
def INA219_REG_POWER : ℕ := 0x03

/-- Constant `INA219_REG_CURRENT = 0x04` (`BiasBoardControl.py`). -/
def INA219_REG_CURRENT : ℕ := 0x04

/-! ## `MSBF` — byte swap (`BiasBoardControl.py`, lines 54–62) -/

/-- Function `MSBF(val) = ((val & 0xFF) << 8) | ((val >> 8) & 0xFF)`. -/
def MSBF (val : ℕ) : ℕ :=
  ((val &&& 0xFF) <<< 8) ||| ((val >>> 8) &&& 0xFF)

/-! ## Channel router (`ALPACABias.py`, `__getboard`, lines 187–201)

`__getboard` asserts `1 <= channel <= 144` (raising before any hardware or
board-list access otherwise), then computes `boardnum = math.ceil(channel/8)`
and `boardchan = ((channel-1) % 8) + 1`.  For `channel ∈ [1,144]` the float
division `channel/8` is exact, so `math.ceil(channel/8)` is the natural-number
ceiling `(channel + 7) / 8`.  The failed assertion is modelled as `none`. -/

/-- Model of `__getboard`: `none` on the failed range assertion, otherwise
`(boardnum, boardchan)`. -/
def getboard (channel : ℕ) : Option (ℕ × ℕ) :=
  if 1 ≤ channel ∧ channel ≤ 144 then
    some ((channel + 7) / 8, (channel - 1) % 8 + 1)
  else
    none

/-- Selector `potnum = 1 if ch <= 4 else 2` (`ALPACABias.py`, line 63). -/
def potnum (ch : ℕ) : ℕ := if ch ≤ 4 then 1 else 2

/-- Selector `wipernum = ch if ch <= 4 else ch - 4` (`ALPACABias.py`, line 64). -/
def wipernum (ch : ℕ) : ℕ := if ch ≤ 4 then ch else ch - 4

/-! ## The convergence loop (`ALPACABias.py`, `set_iLNA` lines 50–103,
`set_vLNA` lines 106–159)

Both functions share the same loop shape; only the fault threshold
(`1000.0` mA vs `3.0` V) and the tolerance constant differ, so the loop is
embedded once, parametrised by those two rationals, and instantiated twice.

The Python loop is

```
i = 0
while 1:
    if i > MAXITER: <print timeout>; break
    val = <sensor read>
    if val >= limit: <print fault>; return      # skips the final save
    diff = abs(val - target) / target
    if diff < tol: break
    elif val < target:
        if wiperpos >= 255: <print unreachable>; break
        wiperpos += 1; set_pot(...)
    else:
        if wiperpos <= 0: <print unreachable>; break
        wiperpos -= 1; set_pot(...)
    i += 1
```

`i` increases by one on every pass that reaches the bottom, so the pass with
counter value `i` is the `(i+1)`-st pass and the `i > MAXITER` exit fires on
the pass with `i = MAXITER + 1`.  The embedding recurses structurally on the
number of remaining passes `rem = MAXITER + 1 - i`; the sensor read of the
pass with counter `i` is `meas i = meas (MAXITER - rem')` where
`rem = rem' + 1`. -/

/-- How the convergence loop (or the whole call) ended. -/
inductive Outcome
  /-- converged: `diff < tolerance`, then `break`. -/
  | converged
  /-- fault: sensor value at or above the plausibility limit: `return`. -/
  | fault
  /-- unreachable: wiper already at 0 or 255 while still out of tolerance: `break`. -/
  | unreachable
  /-- timeout: `i > MAXITER`, then `break`. -/
  | timeout
  /-- zero-target: `set_current == 0` / `set_voltage == 0` short-circuit path. -/
  | zeroOff
  deriving DecidableEq

/-- Result of the convergence loop: final outcome, final cached wiper value,
the list of wiper values written by `set_pot` (in order), and the number of
sensor reads performed. -/
structure LoopRes where
  outcome : Outcome
  wiper : ℤ
  writes : List ℤ
  reads : ℕ
  deriving DecidableEq

/-- Model of Python `abs` on a rational. -/
def ratAbs (q : ℚ) : ℚ := if q < 0 then -q else q

/-- The `while 1` loop of `set_iLNA` / `set_vLNA`, recursing on the number of
remaining passes (`MAXITER + 1` at entry); `meas i` is the sensor value read
on the pass whose Python counter is `i`, `w` the cached wiper position. -/
def convergeLoop (limit tol : ℚ) (meas : ℕ → ℚ) (target : ℚ) :
    ℕ → ℤ → LoopRes
  | 0, w => ⟨.timeout, w, [], 0⟩
  | rem + 1, w =>
    let val := meas (MAXITER - rem)
    if limit ≤ val then ⟨.fault, w, [], 1⟩
    else if ratAbs (val - target) / target < tol then ⟨.converged, w, [], 1⟩
    else if val < target then
      if 255 ≤ w then ⟨.unreachable, w, [], 1⟩
      else
        let r := convergeLoop limit tol meas target rem (w + 1)
        ⟨r.outcome, r.wiper, (w + 1) :: r.writes, r.reads + 1⟩
    else
      if w ≤ 0 then ⟨.unreachable, w, [], 1⟩
      else
        let r := convergeLoop limit tol meas target rem (w - 1)
        ⟨r.outcome, r.wiper, (w - 1) :: r.writes, r.reads + 1⟩

/-- Update rule of `set_ioexpander`'s pinstate update (`BiasBoardControl.py`, lines 148–153):
`p | (1 << pin)` when raising, `p & ~(1 << pin)` when clearing (on
non-negative Python ints, the latter is `Nat.ldiff`). -/
def set_ioexpander_pin (p : ℕ) (pin : ℕ) (state : Bool) : ℕ :=
  if state then p ||| (1 <<< pin) else Nat.ldiff p (1 <<< pin)

/-- Observable result of one `set_iLNA` / `set_vLNA` call on one channel. -/
structure BiasResult where
  outcome : Outcome
  /-- the board's io-expander pinstate after the call -/
  pinstate : ℕ
  /-- the cached wiper value for the channel after the call -/
  wiper : ℤ
  /-- wiper values written by `set_pot` during the call, in order -/
  writes : List ℤ
  /-- number of sensor reads performed -/
  reads : ℕ
  /-- whether `save_boards_state` ran before the call returned -/
  saved : Bool
  deriving DecidableEq

/-- Model of `set_iLNA` (`ALPACABias.py`, lines 50–103) for a resolved board channel:
`p0` is the board's io-expander pinstate, `ch` the board channel, `w0` the
cached wiper position (`bd.get_pot`), `meas` the sensor-read oracle
(`bd.get_current`).  On the `set_current == 0` path the channel power pin is
cleared, the wiper set to 0 and the state saved; otherwise the power pin is
raised and the loop runs.  Every loop exit is a `break` followed by
`save_boards_state` except the fault exit, which is a `return` that skips
the save. -/
def set_iLNA (meas : ℕ → ℚ) (p0 : ℕ) (ch : ℕ) (w0 : ℤ)
    (set_current : ℚ) : BiasResult :=
  if set_current = 0 then
    ⟨.zeroOff, set_ioexpander_pin p0 ch false, 0, [0], 0, true⟩
  else
    let r := convergeLoop 1000 ITOLERANCE meas set_current (MAXITER + 1) w0
    ⟨r.outcome, set_ioexpander_pin p0 ch true, r.wiper, r.writes, r.reads,
      if r.outcome = .fault then false else true⟩

/-- Model of `set_vLNA` (`ALPACABias.py`, lines 106–159); identical to `set_iLNA`
except that the fault limit is `3.0` V and the tolerance `VTOLERANCE`. -/
def set_vLNA (meas : ℕ → ℚ) (p0 : ℕ) (ch : ℕ) (w0 : ℤ)
    (set_voltage : ℚ) : BiasResult :=
  if set_voltage = 0 then
    ⟨.zeroOff, set_ioexpander_pin p0 ch false, 0, [0], 0, true⟩
  else
    let r := convergeLoop 3 VTOLERANCE meas set_voltage (MAXITER + 1) w0
    ⟨r.outcome, set_ioexpander_pin p0 ch true, r.wiper, r.writes, r.reads,
      if r.outcome = .fault then false else true⟩

/-- Oscillating sensor oracle: reads alternate between 0 and 20, so with a
target of 10 the loop steps the wiper up, then down, forever, and only the
`i > MAXITER` exit can fire. -/
def measOsc (i : ℕ) : ℚ := if i % 2 = 0 then 0 else 20

/-- Predicate on a write trace: starting from cached value `w`, every written
value differs from its predecessor by exactly 1 and stays inside `[0, 255]`. -/
def stepChainB : ℤ → List ℤ → Bool
  | _, [] => true
  | w, x :: xs =>
    (x == w + 1 || x == w - 1) && decide (0 ≤ x) && decide (x ≤ 255)
      && stepChainB x xs

/-! ## Bus event traces (`BiasBoardControl.py`)

Each `BiasBoard` method brackets its I2C transactions with
`self.__start()` (lines 225–230: set up the repeater handle and write
`INSTR_LTCCONNECT`) and `self.__end(devices)` (lines 232–239: close the
device handles, write `INSTR_LTCDISCONNECT`, close the repeater handle).
The wiringPi primitives report failure through their integer return value,
which the source never inspects, so a method's event trace does not depend
on transaction success.  Handle setup/close for the repeater itself is part
of the `connect` / `disconnect` events.

Argument assertions, however, do shape the traces:
* `set_pot` (lines 167–169) and `set_ioexpander` (line 141) assert their
  arguments before `self.__start()`, so a failed assertion there raises
  before any bus event: the trace of such a call is empty.
* The INA-touching methods (`__ina_getCurrent_raw`, `__ina_getPower_raw`,
  `__ina_getShuntVoltage_raw`, `__ina_getBusVoltage_raw`, `init_currsense`)
  call `self.__start()` first and only then `self.__get_fina(chan)`, whose
  `assert 0 < chan ≤ 8` (lines 126–127) raises inside the gated window for
  an out-of-range channel: the `AssertionError` propagates, `self.__end` is
  never reached, and the trace ends after the `connect` with the gate still
  open.  Their traces therefore carry the channel check explicitly. -/

/-- Constant `LTC4302_BASE_ADDR = 0b11_00000` (`BiasBoardControl.py`). -/
def LTC4302_BASE_ADDR : ℕ := 0b1100000

/-- Value `INACALVALUE = MSBF(0x1000)` (`BiasBoardControl.py`, line 73). -/
def INACALVALUE : ℕ := MSBF 0x1000

/-- Value `INA219CONFIG = MSBF(0x2000 | 0x1800 | 0x0180 | 0x0018 | 0x07)`
(`BiasBoardControl.py`, lines 66–72). -/
def INA219CONFIG : ℕ :=
  MSBF (0x2000 ||| 0x1800 ||| 0x0180 ||| 0x0018 ||| 0x07)

/-- One observable I2C bus event. -/
inductive BusEv
  /-- repeater-gate open: `write(frptr, INSTR_LTCCONNECT)` addressed to
  `LTC4302_BASE_ADDR + addr` (with the handle setup that precedes it) -/
  | connect (addr : ℕ)
  /-- repeater-gate close: `write(frptr, INSTR_LTCDISCONNECT)` (with the
  repeater-handle close that follows it) -/
  | disconnect (addr : ℕ)
  /-- an 8-bit register write `write8(dev, reg, val)` -/
  | wr8 (dev reg val : ℕ)
  /-- a 16-bit register write `write16(dev, a, b)` -/
  | wr16 (dev a b : ℕ)
  /-- a 16-bit register read `read16(dev, reg)` -/
  | rd16 (dev reg : ℕ)
  /-- a device-handle close `close(dev)` -/
  | closeDev (dev : ℕ)
  deriving DecidableEq

/-- The I2C address selected for `pot` by `__get_fpot1` / `__get_fpot2`
(the `if pot == 2 ... else ...` dispatch of `set_pot`, lines 173–178). -/
def potAddr (pot : ℕ) : ℕ :=
  if pot = 2 then DIGITALPOT_2_I2C_ADDR else DIGITALPOT_1_I2C_ADDR

/-- The I2C address of channel `chan`'s INA219 (`__get_fina`, lines 125–129). -/
def inaAddr (chan : ℕ) : ℕ := CURR_SENSE_BASE_I2C_ADDR + (chan - 1)

/-- Events of `BiasBoard.__start` (lines 225–230). -/
def startTrace (addr : ℕ) : List BusEv := [.connect addr]

/-- Events of `BiasBoard.__end devices` (lines 232–239). -/
def endTrace (addr : ℕ) (devices : List ℕ) : List BusEv :=
  devices.map BusEv.closeDev ++ [.disconnect addr]

/-- Event trace of `BiasBoard.set_pot` (lines 157–180), after its argument
assertions have passed. -/
def set_potTrace (addr pot wiper value : ℕ) : List BusEv :=
  startTrace addr
    ++ [.wr8 (potAddr pot) (AD5144_CMD_WRITE_RDAC + (wiper - 1)) value]
    ++ endTrace addr [potAddr pot]

/-- Event trace of `BiasBoard.set_ioexpander` (lines 131–155): one `write16`
to the io expander with either zeros (`zero=True`) or the updated pinstate
`p` split into its two bytes. -/
def set_ioexpanderTrace (addr p : ℕ) (zero : Bool) : List BusEv :=
  startTrace addr
    ++ [if zero then BusEv.wr16 PCF8575_BASE_ADDR 0 0
        else BusEv.wr16 PCF8575_BASE_ADDR (p &&& 0xFF) ((p &&& 0xFF00) >>> 8)]
    ++ endTrace addr [PCF8575_BASE_ADDR]

/-- Event trace of `BiasBoard.__set_pot_linear` (lines 201–208): no
assertions, one `write16` to the selected pot. -/
def set_pot_linearTrace (addr pot : ℕ) : List BusEv :=
  startTrace addr
    ++ [.wr16 (potAddr pot) 0b1101000 0b00001110]
    ++ endTrace addr [potAddr pot]

/-- Event trace of `BiasBoard.__ina_getCurrent_raw` (lines 263–269):
`__start`, then `__get_fina(chan)` — whose channel assertion raises inside
the gated window for `chan ∉ [1,8]`, cutting the trace after the `connect` —
then re-assert the calibration register, read the current register, `__end`. -/
def ina_getCurrent_rawTrace (addr chan : ℕ) : List BusEv :=
  startTrace addr
    ++ if 1 ≤ chan ∧ chan ≤ 8 then
        [.wr16 (inaAddr chan) INA219_REG_CALIBRATION INACALVALUE,
         .rd16 (inaAddr chan) INA219_REG_CURRENT]
          ++ endTrace addr [inaAddr chan]
      else []

/-- Event trace of `BiasBoard.__ina_getPower_raw` (lines 271–277); same
in-gate channel assertion as `__ina_getCurrent_raw`. -/
def ina_getPower_rawTrace (addr chan : ℕ) : List BusEv :=
  startTrace addr
    ++ if 1 ≤ chan ∧ chan ≤ 8 then
        [.wr16 (inaAddr chan) INA219_REG_CALIBRATION INACALVALUE,
         .rd16 (inaAddr chan) INA219_REG_POWER]
          ++ endTrace addr [inaAddr chan]
      else []

/-- Event trace of `BiasBoard.__ina_getShuntVoltage_raw` (lines 279–284):
no calibration re-write, just the shunt-register read; same in-gate channel
assertion. -/
def ina_getShuntVoltage_rawTrace (addr chan : ℕ) : List BusEv :=
  startTrace addr
    ++ if 1 ≤ chan ∧ chan ≤ 8 then
        [.rd16 (inaAddr chan) INA219_REG_SHUNTVOLTAGE]
          ++ endTrace addr [inaAddr chan]
      else []

/-- Event trace of `BiasBoard.__ina_getBusVoltage_raw` (lines 286–294);
same in-gate channel assertion. -/
def ina_getBusVoltage_rawTrace (addr chan : ℕ) : List BusEv :=
  startTrace addr
    ++ if 1 ≤ chan ∧ chan ≤ 8 then
        [.wr16 (inaAddr chan) INA219_REG_CALIBRATION INACALVALUE,
         .rd16 (inaAddr chan) INA219_REG_BUSVOLTAGE]
          ++ endTrace addr [inaAddr chan]
      else []

/-- Event trace of `BiasBoard.init_currsense` (lines 241–261): `__start`
(line 251) precedes `__get_fina`'s channel assertion (line 253), so the same
in-gate cut applies. -/
def init_currsenseTrace (addr chan : ℕ) : List BusEv :=
  startTrace addr
    ++ if 1 ≤ chan ∧ chan ≤ 8 then
        [.wr16 (inaAddr chan) INA219_REG_CALIBRATION INACALVALUE,
         .wr16 (inaAddr chan) INA219_REG_CONFIG INA219CONFIG]
          ++ endTrace addr [inaAddr chan]
      else []

/-- Scan of a bus trace with the repeater-gate state (`none` = no board
connected, `some a` = board `a`'s gate open): device transactions and device
closes are legal only while a gate is open, a `disconnect` must match the
open gate, gates do not nest, and the trace must end with the gate closed. -/
def gatedFrom : Option ℕ → List BusEv → Bool
  | none, [] => true
  | some _, [] => false
  | none, BusEv.connect a :: rest => gatedFrom (some a) rest
  | none, _ :: _ => false
  | some a, BusEv.disconnect b :: rest => a == b && gatedFrom none rest
  | some _, BusEv.connect _ :: _ => false
  | some a, _ :: rest => gatedFrom (some a) rest

/-- A trace is well gated when it scans cleanly from the closed state. -/
def gatedOK (t : List BusEv) : Bool := gatedFrom none t

/-! ## Cached pot state (`BiasBoard.set_pot` / `get_pot`, lines 157–199) -/

/-- The two 4-entry wiper caches `self.pot1` / `self.pot2` of a board. -/
structure PotState where
  pot1 : List ℕ
  pot2 : List ℕ
  deriving DecidableEq

/-- Model of `BiasBoard.set_pot` (lines 157–180): `none` when one of its
argument assertions fails; otherwise the updated cache (entry `wiper - 1` of
the selected pot list) together with the emitted bus trace. -/
def set_pot (addr : ℕ) (st : PotState) (pot wiper value : ℕ) :
    Option (PotState × List BusEv) :=
  if 1 ≤ wiper ∧ wiper ≤ 4 ∧ (pot = 1 ∨ pot = 2) ∧ value ≤ 255 then
    some
      (if pot = 2 then { st with pot2 := st.pot2.set (wiper - 1) value }
       else { st with pot1 := st.pot1.set (wiper - 1) value },
       set_potTrace addr pot wiper value)
  else none

/-- Model of `BiasBoard.get_pot` (lines 182–199): `none` when an assertion
fails; otherwise the cached entry, with the (empty) bus trace — the method
performs no `__start`/`__end` and no device access. -/
def get_pot (st : PotState) (pot wiper : ℕ) : Option (ℕ × List BusEv) :=
  if 1 ≤ wiper ∧ wiper ≤ 4 ∧ (pot = 1 ∨ pot = 2) then
    some
      ((if pot = 2 then st.pot2.getD (wiper - 1) 0
        else st.pot1.getD (wiper - 1) 0), [])
  else none

/-! ## Sensor averaging (`BiasBoard.get_current`, lines 326–341) -/

/-- Value returned by the `ind`-th call to `__ina_getCurrent_raw` (lines
263–269): the byte-swapped current register, where `reg ind` is the 16-bit
register value delivered by the hardware on that read. -/
def ina_getCurrent_raw (reg : ℕ → ℕ) (ind : ℕ) : ℕ := MSBF (reg ind)

/-- Default `navg` of `get_current` / `get_bus` / `get_shunt` (`navg: int = 6`). -/
def NAVG : ℕ := 6

/-- Model of `BiasBoard.get_current` (lines 326–341): `np.average` of `navg`
samples, each `__ina_getCurrent_raw(chan) / (10 * ina219_currentDivider_mA)`. -/
def get_current (reg : ℕ → ℕ) (divider : ℚ) (navg : ℕ) : ℚ :=
  (∑ ind ∈ Finset.range navg, (ina_getCurrent_raw reg ind : ℚ) / (10 * divider))
    / navg

/-- Reading of `get_current` asserted by the specification: each raw reading
divided by the configured current-divider constant itself.  Kept separate so
it can be compared with the implementation `get_current`. -/
def get_current_claimed (reg : ℕ → ℕ) (divider : ℚ) (navg : ℕ) : ℚ :=
  (∑ ind ∈ Finset.range navg, (ina_getCurrent_raw reg ind : ℚ) / divider)
    / navg

/-- Arithmetic mean of the first `navg` raw current readings. -/
def rawMean (reg : ℕ → ℕ) (navg : ℕ) : ℚ :=
  (∑ ind ∈ Finset.range navg, (ina_getCurrent_raw reg ind : ℚ)) / navg

/-! ## Helper lemmas about the convergence loop -/

theorem convergeLoop_succ (limit tol : ℚ) (meas : ℕ → ℚ) (target : ℚ)
    (rem : ℕ) (w : ℤ) :
    convergeLoop limit tol meas target (rem + 1) w =
      (let val := meas (MAXITER - rem)
       if limit ≤ val then ⟨.fault, w, [], 1⟩
       else if ratAbs (val - target) / target < tol then ⟨.converged, w, [], 1⟩
       else if val < target then
         if 255 ≤ w then ⟨.unreachable, w, [], 1⟩
         else
           let r := convergeLoop limit tol meas target rem (w + 1)
           ⟨r.outcome, r.wiper, (w + 1) :: r.writes, r.reads + 1⟩
       else
         if w ≤ 0 then ⟨.unreachable, w, [], 1⟩
         else
           let r := convergeLoop limit tol meas target rem (w - 1)
           ⟨r.outcome, r.wiper, (w - 1) :: r.writes, r.reads + 1⟩) := rfl

/-- Each pass of the loop performs at most one `set_pot` write and at most
one sensor read, so both are bounded by the number of remaining passes. -/
theorem convergeLoop_counts (limit tol : ℚ) (meas : ℕ → ℚ) (target : ℚ) :
    ∀ rem w, (convergeLoop limit tol meas target rem w).writes.length ≤ rem ∧
      (convergeLoop limit tol meas target rem w).reads ≤ rem := by
  intro rem
  induction rem with
  | zero => intro w; simp [convergeLoop]
  | succ n ih =>
    intro w
    rw [convergeLoop_succ]
    simp only []
    split
    · simp
    · split
      · simp
      · split
        · split
          · simp
          · have h := ih (w + 1)
            constructor
            · simpa using Nat.succ_le_succ h.1
            · simpa using Nat.succ_le_succ h.2
        · split
          · simp
          · have h := ih (w - 1)
            constructor
            · simpa using Nat.succ_le_succ h.1
            · simpa using Nat.succ_le_succ h.2

/-- Starting inside `[0, 255]`, the write trace steps by exactly ±1, stays
inside `[0, 255]`, and the final wiper value stays inside `[0, 255]`. -/
theorem convergeLoop_chain (limit tol : ℚ) (meas : ℕ → ℚ) (target : ℚ) :
    ∀ rem w, 0 ≤ w → w ≤ 255 →
      stepChainB w (convergeLoop limit tol meas target rem w).writes = true ∧
      0 ≤ (convergeLoop limit tol meas target rem w).wiper ∧
      (convergeLoop limit tol meas target rem w).wiper ≤ 255 := by
  intro rem
  induction rem with
  | zero => intro w h0 h255; simp [convergeLoop, stepChainB, h0, h255]
  | succ n ih =>
    intro w h0 h255
    rw [convergeLoop_succ]
    simp only []
    split
    · simp [stepChainB, h0, h255]
    · split
      · simp [stepChainB, h0, h255]
      · split
        · split
          · simp [stepChainB, h0, h255]
          · rename_i hrail
            have hw1 : (0 : ℤ) ≤ w + 1 := by omega
            have hw2 : w + 1 ≤ 255 := by omega
            have h := ih (w + 1) hw1 hw2
            refine ⟨?_, by simpa using h.2.1, by simpa using h.2.2⟩
            simp only [stepChainB, h.1, Bool.and_true]
            simp [hw1, hw2]
        · split
          · simp [stepChainB, h0, h255]
          · rename_i hfloor
            have hw1 : (0 : ℤ) ≤ w - 1 := by omega
            have hw2 : w - 1 ≤ 255 := by omega
            have h := ih (w - 1) hw1 hw2
            refine ⟨?_, by simpa using h.2.1, by simpa using h.2.2⟩
            simp only [stepChainB, h.1, Bool.and_true]
            simp [hw1, hw2]

/-- On a fault exit the final (faulting) pass read the sensor but wrote no
wiper value, so the loop performed exactly one more read than writes. -/
theorem convergeLoop_fault_reads (limit tol : ℚ) (meas : ℕ → ℚ) (target : ℚ) :
    ∀ rem w, (convergeLoop limit tol meas target rem w).outcome = .fault →
      (convergeLoop limit tol meas target rem w).reads =
        (convergeLoop limit tol meas target rem w).writes.length + 1 := by
  intro rem
  induction rem with
  | zero => intro w h; simp [convergeLoop] at h
  | succ n ih =>
    intro w
    rw [convergeLoop_succ]
    simp only []
    split
    · intro _; simp
    · split
      · intro h; simp at h
      · split
        · split
          · intro h; simp at h
          · intro h
            simp only [List.length_cons] at *
            have := ih (w + 1) (by simpa using h)
            simpa using this
        · split
          · intro h; simp at h
          · intro h
            simp only [List.length_cons] at *
            have := ih (w - 1) (by simpa using h)
            simpa using this

/-- A fault on the very first sensor read exits immediately: wiper untouched,
nothing written, exactly one read. -/
theorem convergeLoop_fault_first (limit tol : ℚ) (meas : ℕ → ℚ) (target : ℚ)
    (w : ℤ) (h : limit ≤ meas 0) :
    convergeLoop limit tol meas target (MAXITER + 1) w = ⟨.fault, w, [], 1⟩ := by
  rw [convergeLoop_succ]
  simp only [MAXITER, Nat.sub_self] at *
  simp [h]

/-- With the oscillating oracle and target 10, every pass steps the wiper
(up on even passes, back down on odd passes), no exit but the `i > MAXITER`
one can fire, and one wiper write happens per pass: from any start in
`[0, 254]` and an odd number `2k+1 ≤ MAXITER + 1` of remaining passes, the
loop times out after exactly `2k+1` writes. -/
theorem convergeLoop_osc_timeout :
    ∀ k, 2 * k ≤ MAXITER → ∀ w : ℤ, 0 ≤ w → w ≤ 254 →
      (convergeLoop 1000 ITOLERANCE measOsc 10 (2 * k + 1) w).outcome
          = .timeout ∧
      (convergeLoop 1000 ITOLERANCE measOsc 10 (2 * k + 1) w).writes.length
          = 2 * k + 1 := by
  have hval0 : ¬((1000 : ℚ) ≤ 0) := by norm_num
  have htol0 : ¬(ratAbs ((0 : ℚ) - 10) / 10 < ITOLERANCE) := by
    norm_num [ratAbs, ITOLERANCE]
  have hlt0 : ((0 : ℚ) < 10) := by norm_num
  have hval20 : ¬((1000 : ℚ) ≤ 20) := by norm_num
  have htol20 : ¬(ratAbs ((20 : ℚ) - 10) / 10 < ITOLERANCE) := by
    norm_num [ratAbs, ITOLERANCE]
  have hlt20 : ¬((20 : ℚ) < 10) := by norm_num
  intro k
  induction k with
  | zero =>
    intro hk w h0 h254
    have hm : measOsc (MAXITER - 0) = 0 := by simp [measOsc, MAXITER]
    rw [show 2 * 0 + 1 = 0 + 1 from rfl, convergeLoop_succ]
    simp only []
    rw [hm, if_neg hval0, if_neg htol0, if_pos hlt0,
      if_neg (show ¬((255 : ℤ) ≤ w) by omega)]
    simp [convergeLoop]
  | succ k ih =>
    intro hk w h0 h254
    have hk2 : 2 * k + 2 ≤ MAXITER := hk
    have hm1 : measOsc (MAXITER - (2 * k + 2)) = 0 := by
      have hpar : (MAXITER - (2 * k + 2)) % 2 = 0 := by
        simp only [MAXITER] at hk2 ⊢; omega
      simp [measOsc, hpar]
    have hm2 : measOsc (MAXITER - (2 * k + 1)) = 20 := by
      have hpar : ¬((MAXITER - (2 * k + 1)) % 2 = 0) := by
        simp only [MAXITER] at hk2 ⊢; omega
      simp [measOsc, hpar]
    rw [show 2 * (k + 1) + 1 = (2 * k + 2) + 1 from by ring, convergeLoop_succ]
    simp only []
    rw [hm1, if_neg hval0, if_neg htol0, if_pos hlt0,
      if_neg (show ¬((255 : ℤ) ≤ w) by omega)]
    rw [show (2 : ℕ) * k + 2 = (2 * k + 1) + 1 from rfl, convergeLoop_succ]
    simp only []
    rw [hm2, if_neg hval20, if_neg htol20, if_neg hlt20,
      if_neg (show ¬(w + 1 ≤ (0 : ℤ)) by omega),
      show w + 1 - 1 = w from by ring]
    have h := ih (by omega) w h0 h254
    refine ⟨by simpa using h.1, ?_⟩
    simp only [List.length_cons, h.2]

/-- Arithmetic characterisation of the byte swap: low byte times 256 plus
the (masked) high byte. -/
theorem MSBF_eq (v : ℕ) : MSBF v = 2 ^ 8 * (v % 2 ^ 8) + v / 2 ^ 8 % 2 ^ 8 := by
  have h255 : (0xFF : ℕ) = 2 ^ 8 - 1 := by norm_num
  unfold MSBF
  rw [h255, Nat.and_pow_two_sub_one_eq_mod, Nat.and_pow_two_sub_one_eq_mod,
    Nat.shiftLeft_eq, Nat.shiftRight_eq_div_pow,
    Nat.mul_comm (v % 2 ^ 8) (2 ^ 8),
    ← Nat.mul_add_lt_is_or (Nat.mod_lt _ (by norm_num)) (v % 2 ^ 8)]

/-! ## Claim theorems -/

/-- C10: `MSBF` maps every 16-bit unsigned value to a 16-bit unsigned value
and is an involution there, so a swap on write followed by a swap on read
recovers the original value. -/
theorem c10_msbf_involution (v : ℕ) (h : v ≤ 65535) :
    MSBF v ≤ 65535 ∧ MSBF (MSBF v) = v := by
  have e := MSBF_eq v
  simp only [show (2 : ℕ) ^ 8 = 256 from rfl] at e
  have e2 : v / 256 % 256 = v / 256 := by omega
  rw [e2] at e
  have h1 : (256 * (v % 256) + v / 256) % 256 = v / 256 := by
    rw [Nat.add_comm, Nat.add_mul_mod_self_left]
    exact Nat.mod_eq_of_lt (by omega)
  have h2 : (256 * (v % 256) + v / 256) / 256 = v % 256 := by
    rw [Nat.add_comm, Nat.add_mul_div_left _ _ (by norm_num)]
    omega
  constructor
  · rw [e]; omega
  · rw [e, MSBF_eq]
    simp only [show (2 : ℕ) ^ 8 = 256 from rfl]
    rw [h1, h2]
    omega

theorem c10_msbf_involution_witness :
    (0x1234 : ℕ) ≤ 65535 ∧
      MSBF 0x1234 ≤ 65535 ∧ MSBF (MSBF 0x1234) = 0x1234 :=
  ⟨by decide, c10_msbf_involution 0x1234 (by decide)⟩

/-- C1: for every channel in `[1, 144]`, `__getboard` yields
`board = ceil(channel/8) ∈ [1, 18]` and
`board_channel = ((channel-1) mod 8) + 1 ∈ [1, 8]`; the mapping is injective
and hits every `(board, board_channel)` pair in `[1,18] × [1,8]` (a
bijection); channels outside `[1, 144]` fail the range assertion before any
board access; and `board_channel` maps to `potnum` / `wipernum` exactly as
claimed. -/
theorem c1_channel_router :
    (∀ ch, 1 ≤ ch → ch ≤ 144 →
        getboard ch = some ((ch + 7) / 8, (ch - 1) % 8 + 1) ∧
        1 ≤ (ch + 7) / 8 ∧ (ch + 7) / 8 ≤ 18 ∧
        1 ≤ (ch - 1) % 8 + 1 ∧ (ch - 1) % 8 + 1 ≤ 8) ∧
    (∀ c1 c2, 1 ≤ c1 → c1 ≤ 144 → 1 ≤ c2 → c2 ≤ 144 →
        getboard c1 = getboard c2 → c1 = c2) ∧
    (∀ b bc, 1 ≤ b → b ≤ 18 → 1 ≤ bc → bc ≤ 8 →
        1 ≤ (b - 1) * 8 + bc ∧ (b - 1) * 8 + bc ≤ 144 ∧
        getboard ((b - 1) * 8 + bc) = some (b, bc)) ∧
    getboard 0 = none ∧ getboard 145 = none ∧
    (∀ ch, ch < 1 ∨ 144 < ch → getboard ch = none) ∧
    (∀ bc, 1 ≤ bc → bc ≤ 8 →
        (bc ≤ 4 → potnum bc = 1 ∧ wipernum bc = bc) ∧
        (4 < bc → potnum bc = 2 ∧ wipernum bc = bc - 4) ∧
        1 ≤ potnum bc ∧ potnum bc ≤ 2 ∧
        1 ≤ wipernum bc ∧ wipernum bc ≤ 4) := by
  refine ⟨?_, ?_, ?_, by decide, by decide, ?_, ?_⟩
  · intro ch h1 h144
    rw [getboard, if_pos ⟨h1, h144⟩]
    refine ⟨rfl, by omega, by omega, by omega, by omega⟩
  · intro c1 c2 ha hb hc hd h
    rw [getboard, if_pos ⟨ha, hb⟩, getboard, if_pos ⟨hc, hd⟩] at h
    simp only [Option.some.injEq, Prod.mk.injEq] at h
    omega
  · intro b bc hb1 hb18 hbc1 hbc8
    refine ⟨by omega, by omega, ?_⟩
    rw [getboard, if_pos (by omega)]
    simp only [Option.some.injEq, Prod.mk.injEq]
    omega
  · intro ch h
    rw [getboard, if_neg (by omega)]
  · intro bc h1 h8
    unfold potnum wipernum
    by_cases h4 : bc ≤ 4 <;> simp [h4] <;> omega

theorem c1_channel_router_witness :
    getboard 73 = some (10, 1) ∧ getboard 145 = none ∧
      potnum 1 = 1 ∧ wipernum 1 = 1 := by
  refine ⟨?_, c1_channel_router.2.2.2.2.1, ?_, ?_⟩
  · have h := (c1_channel_router.1 73 (by decide) (by decide)).1
    simpa using h
  · exact ((c1_channel_router.2.2.2.2.2.2 1 (by decide) (by decide)).1
      (by decide)).1
  · exact ((c1_channel_router.2.2.2.2.2.2 1 (by decide) (by decide)).1
      (by decide)).2

/-- C6: a zero-target call of `set_iLNA` / `set_vLNA` clears the channel's
power pin, writes wiper value 0, persists the snapshot, and returns without
entering the loop: no sensor read, no stepping. -/
theorem c6_zero_target (meas : ℕ → ℚ) (p0 ch : ℕ) (w0 : ℤ) :
    set_iLNA meas p0 ch w0 0 =
      ⟨.zeroOff, set_ioexpander_pin p0 ch false, 0, [0], 0, true⟩ ∧
    set_vLNA meas p0 ch w0 0 =
      ⟨.zeroOff, set_ioexpander_pin p0 ch false, 0, [0], 0, true⟩ ∧
    (set_ioexpander_pin p0 ch false).testBit ch = false := by
  refine ⟨by simp [set_iLNA], by simp [set_vLNA], ?_⟩
  simp [set_ioexpander_pin, Nat.testBit_ldiff, Nat.one_shiftLeft,
    Nat.testBit_two_pow_self]

/-- C7 counterexample: `__ina_getCurrent_raw` opens the repeater gate in
`__start` before `__get_fina` validates the channel, so for channel 9
(reachable through the unvalidated public `get_current`) the assertion
raises inside the gated window: the operation's trace is just the `connect`,
the disconnect is never issued, and the gate is not released on that exit
path. -/
theorem c7_counterexample :
    ina_getCurrent_rawTrace 1 9 = [BusEv.connect 1] ∧
    gatedOK (ina_getCurrent_rawTrace 1 9) = false := by
  constructor <;> decide

/-- C7 amended: every device transaction of a `BiasBoard` operation occurs
strictly between a matching repeater-gate `connect` and `disconnect`, and a
failed bus transaction cannot skip the close (the wiringPi primitives report
failure through return codes the source ignores): `set_pot`,
`set_ioexpander` (whose argument assertions fire before the gate opens) and
`__set_pot_linear` release the gate on every exit path, and so do the five
INA-touching operations for every valid channel in `[1, 8]` — but the
INA-touching operations open the gate before `__get_fina` validates the
channel, so for a channel outside `[1, 8]` the in-window assertion failure
leaves the gate unreleased. -/
theorem c7_gate_discipline (addr pot wiper value p chan : ℕ) (zero : Bool) :
    gatedOK (set_potTrace addr pot wiper value) = true ∧
    gatedOK (set_ioexpanderTrace addr p zero) = true ∧
    gatedOK (set_pot_linearTrace addr pot) = true ∧
    (1 ≤ chan → chan ≤ 8 →
      gatedOK (ina_getCurrent_rawTrace addr chan) = true ∧
      gatedOK (ina_getPower_rawTrace addr chan) = true ∧
      gatedOK (ina_getShuntVoltage_rawTrace addr chan) = true ∧
      gatedOK (ina_getBusVoltage_rawTrace addr chan) = true ∧
      gatedOK (init_currsenseTrace addr chan) = true) ∧
    (¬(1 ≤ chan ∧ chan ≤ 8) →
      gatedOK (ina_getCurrent_rawTrace addr chan) = false ∧
      gatedOK (ina_getPower_rawTrace addr chan) = false ∧
      gatedOK (ina_getShuntVoltage_rawTrace addr chan) = false ∧
      gatedOK (ina_getBusVoltage_rawTrace addr chan) = false ∧
      gatedOK (init_currsenseTrace addr chan) = false) := by
  refine ⟨?_, ?_, ?_, ?_, ?_⟩
  · simp [gatedOK, gatedFrom, set_potTrace, startTrace, endTrace]
  · cases zero <;>
      simp [gatedOK, gatedFrom, set_ioexpanderTrace, startTrace, endTrace]
  · simp [gatedOK, gatedFrom, set_pot_linearTrace, startTrace, endTrace]
  · intro h1 h8
    refine ⟨?_, ?_, ?_, ?_, ?_⟩ <;>
      simp [gatedOK, gatedFrom, ina_getCurrent_rawTrace, ina_getPower_rawTrace,
        ina_getShuntVoltage_rawTrace, ina_getBusVoltage_rawTrace,
        init_currsenseTrace, startTrace, endTrace, h1, h8]
  · intro hbad
    refine ⟨?_, ?_, ?_, ?_, ?_⟩ <;>
      simp [gatedOK, gatedFrom, ina_getCurrent_rawTrace, ina_getPower_rawTrace,
        ina_getShuntVoltage_rawTrace, ina_getBusVoltage_rawTrace,
        init_currsenseTrace, startTrace, endTrace, hbad]

/-- C2 counterexample: with an oscillating sensor (reads alternate 0 mA and
20 mA) and target 10 mA, `set_iLNA` performs `MAXITER + 1 = 257` wiper
adjustments — one more than the claimed bound of 256 — before reporting the
convergence timeout, because the loop guard is `i > MAXITER`. -/
theorem c2_counterexample :
    (set_iLNA measOsc 0 1 100 10).outcome = Outcome.timeout ∧
    (set_iLNA measOsc 0 1 100 10).writes.length = 257 ∧ 256 < 257 := by
  have h10 : ((10 : ℚ)) ≠ 0 := by norm_num
  have h := convergeLoop_osc_timeout 128 (by simp [MAXITER]) 100 (by norm_num)
    (by norm_num)
  rw [show 2 * 128 + 1 = MAXITER + 1 from rfl] at h
  refine ⟨?_, ?_, by norm_num⟩
  · simp only [set_iLNA, if_neg h10]
    exact h.1
  · simp only [set_iLNA, if_neg h10]
    rw [h.2, MAXITER]

/-- C2 amended: each call of `set_iLNA` / `set_vLNA` performs at most
`MAXITER + 1 = 257` wiper adjustments and at most `MAXITER + 1` sensor reads
before returning (the loop guard `i > MAXITER` admits one extra pass beyond
`MAXITER`). -/
theorem c2_iteration_bound (meas : ℕ → ℚ) (p0 ch : ℕ) (w0 : ℤ) (target : ℚ) :
    (set_iLNA meas p0 ch w0 target).writes.length ≤ MAXITER + 1 ∧
    (set_iLNA meas p0 ch w0 target).reads ≤ MAXITER + 1 ∧
    (set_vLNA meas p0 ch w0 target).writes.length ≤ MAXITER + 1 ∧
    (set_vLNA meas p0 ch w0 target).reads ≤ MAXITER + 1 := by
  by_cases h : target = 0
  · simp [set_iLNA, set_vLNA, h, MAXITER]
  · have h1 := convergeLoop_counts 1000 ITOLERANCE meas target (MAXITER + 1) w0
    have h2 := convergeLoop_counts 3 VTOLERANCE meas target (MAXITER + 1) w0
    simp only [set_iLNA, set_vLNA, if_neg h]
    exact ⟨h1.1, h1.2, h2.1, h2.2⟩

/-- C3: with a non-zero target and a cached wiper starting in `[0, 255]`,
every wiper write of the convergence loop differs from the previous wiper
value by exactly ±1, all written values (and the final wiper value) stay in
`[0, 255]`, for both `set_iLNA` and `set_vLNA`. -/
theorem c3_step_invariant (meas : ℕ → ℚ) (p0 ch : ℕ) (w0 : ℤ) (target : ℚ)
    (h0 : 0 ≤ w0) (h255 : w0 ≤ 255) (ht : target ≠ 0) :
    stepChainB w0 (set_iLNA meas p0 ch w0 target).writes = true ∧
    0 ≤ (set_iLNA meas p0 ch w0 target).wiper ∧
    (set_iLNA meas p0 ch w0 target).wiper ≤ 255 ∧
    stepChainB w0 (set_vLNA meas p0 ch w0 target).writes = true ∧
    0 ≤ (set_vLNA meas p0 ch w0 target).wiper ∧
    (set_vLNA meas p0 ch w0 target).wiper ≤ 255 := by
  have h1 := convergeLoop_chain 1000 ITOLERANCE meas target (MAXITER + 1) w0
    h0 h255
  have h2 := convergeLoop_chain 3 VTOLERANCE meas target (MAXITER + 1) w0
    h0 h255
  simp only [set_iLNA, set_vLNA, if_neg ht]
  exact ⟨h1.1, h1.2.1, h1.2.2, h2.1, h2.2.1, h2.2.2⟩

theorem c3_step_invariant_witness :
    stepChainB 100 (set_iLNA (fun _ => 1) 0 1 100 1).writes = true ∧
    0 ≤ (set_iLNA (fun _ => 1) 0 1 100 1).wiper ∧
    (set_iLNA (fun _ => 1) 0 1 100 1).wiper ≤ 255 ∧
    stepChainB 100 (set_vLNA (fun _ => 1) 0 1 100 1).writes = true ∧
    0 ≤ (set_vLNA (fun _ => 1) 0 1 100 1).wiper ∧
    (set_vLNA (fun _ => 1) 0 1 100 1).wiper ≤ 255 :=
  c3_step_invariant (fun _ => 1) 0 1 100 1 (by decide) (by decide) one_ne_zero

/-- C4 counterexample: a hardware-fault exit of `set_iLNA` executes `return`
before the final `save_boards_state`, so the snapshot is not persisted on
that terminal outcome, contradicting the claim that every terminal outcome
persists the snapshot. -/
theorem c4_counterexample :
    (set_iLNA (fun _ => 1000) 0 1 7 50).outcome = Outcome.fault ∧
    (set_iLNA (fun _ => 1000) 0 1 7 50).saved = false := by
  have h50 : ((50 : ℚ)) ≠ 0 := by norm_num
  have hf := convergeLoop_fault_first 1000 ITOLERANCE (fun _ => 1000) 50 7
    (le_refl _)
  simp [set_iLNA, h50, hf]

/-- C4 amended: the snapshot is persisted after the converged, unreachable,
timed-out and zero-target outcomes, but not after a hardware-fault abort,
which returns before the persist call: for both entry points, the state is
saved iff the outcome is not `fault`. -/
theorem c4_persist_iff_not_fault (meas : ℕ → ℚ) (p0 ch : ℕ) (w0 : ℤ)
    (target : ℚ) :
    ((set_iLNA meas p0 ch w0 target).saved = true ↔
      (set_iLNA meas p0 ch w0 target).outcome ≠ Outcome.fault) ∧
    ((set_vLNA meas p0 ch w0 target).saved = true ↔
      (set_vLNA meas p0 ch w0 target).outcome ≠ Outcome.fault) := by
  by_cases h : target = 0
  · constructor <;> simp [set_iLNA, set_vLNA, h]
  · constructor <;>
    · simp only [set_iLNA, set_vLNA, if_neg h]
      split <;> simp_all

/-- C5: a first sensor read at or beyond the plausibility limit (1000 mA for
`set_iLNA`, 3.0 V for `set_vLNA`) aborts immediately with the `fault`
outcome — distinct from every other outcome — leaving the wiper at its
pre-call value with no writes; and on any fault exit the loop performed no
wiper write after the faulting read (reads = writes + 1). -/
theorem c5_fault_short_circuit (meas : ℕ → ℚ) (p0 ch : ℕ) (w0 : ℤ)
    (target : ℚ) :
    (target ≠ 0 → 1000 ≤ meas 0 →
      set_iLNA meas p0 ch w0 target =
        ⟨.fault, set_ioexpander_pin p0 ch true, w0, [], 1, false⟩) ∧
    ((set_iLNA meas p0 ch w0 target).outcome = Outcome.fault →
      (set_iLNA meas p0 ch w0 target).reads =
        (set_iLNA meas p0 ch w0 target).writes.length + 1) ∧
    (target ≠ 0 → 3 ≤ meas 0 →
      set_vLNA meas p0 ch w0 target =
        ⟨.fault, set_ioexpander_pin p0 ch true, w0, [], 1, false⟩) ∧
    ((set_vLNA meas p0 ch w0 target).outcome = Outcome.fault →
      (set_vLNA meas p0 ch w0 target).reads =
        (set_vLNA meas p0 ch w0 target).writes.length + 1) ∧
    Outcome.fault ≠ Outcome.converged ∧
    Outcome.fault ≠ Outcome.unreachable ∧
    Outcome.fault ≠ Outcome.timeout ∧
    Outcome.fault ≠ Outcome.zeroOff := by
  refine ⟨?_, ?_, ?_, ?_, by decide, by decide, by decide, by decide⟩
  · intro ht hm
    rw [set_iLNA, if_neg ht]
    simp only [convergeLoop_fault_first 1000 ITOLERANCE meas target w0 hm]
    simp
  · intro hf
    by_cases h : target = 0
    · rw [set_iLNA, if_pos h] at hf
      simp at hf
    · rw [set_iLNA, if_neg h] at hf ⊢
      exact convergeLoop_fault_reads 1000 ITOLERANCE meas target
        (MAXITER + 1) w0 (by simpa using hf)
  · intro ht hm
    rw [set_vLNA, if_neg ht]
    simp only [convergeLoop_fault_first 3 VTOLERANCE meas target w0 hm]
    simp
  · intro hf
    by_cases h : target = 0
    · rw [set_vLNA, if_pos h] at hf
      simp at hf
    · rw [set_vLNA, if_neg h] at hf ⊢
      exact convergeLoop_fault_reads 3 VTOLERANCE meas target
        (MAXITER + 1) w0 (by simpa using hf)

theorem c5_fault_short_circuit_witness :
    set_iLNA (fun _ => 1000) 0 1 7 1 =
      ⟨.fault, set_ioexpander_pin 0 1 true, 7, [], 1, false⟩ ∧
    set_vLNA (fun _ => 3) 0 1 7 1 =
      ⟨.fault, set_ioexpander_pin 0 1 true, 7, [], 1, false⟩ :=
  ⟨(c5_fault_short_circuit (fun _ => 1000) 0 1 7 1).1 one_ne_zero (le_refl _),
   (c5_fault_short_circuit (fun _ => 3) 0 1 7 1).2.2.1 one_ne_zero
     (le_refl _)⟩

/-- C8 counterexample: `get_current` divides each raw reading by
`10 * divider`, not by the divider itself: with every raw current register
reading equal to 27 and the system divider 2.7, the implementation returns
1 mA while the claimed formula gives 10 mA. -/
theorem c8_counterexample :
    get_current (fun _ => MSBF 27) CURRENT_DIVIDER 6 = 1 ∧
    get_current_claimed (fun _ => MSBF 27) CURRENT_DIVIDER 6 = 10 ∧
    (1 : ℚ) ≠ 10 := by
  have hn : ∀ ind : ℕ, ina_getCurrent_raw (fun _ => MSBF 27) ind = 27 := by
    intro ind
    exact (by decide : MSBF (MSBF 27) = 27)
  refine ⟨?_, ?_, by norm_num⟩
  · unfold get_current
    simp only [hn]
    rw [Finset.sum_const, Finset.card_range]
    norm_num [CURRENT_DIVIDER]
  · unfold get_current_claimed
    simp only [hn]
    rw [Finset.sum_const, Finset.card_range]
    norm_num [CURRENT_DIVIDER]

/-- C8 amended: `get_current(chan, navg)` returns the arithmetic mean of
`navg` (default `NAVG = 6`) raw current-register readings divided by ten
times the configured current-divider constant (system default
`CURRENT_DIVIDER = 2.7`, so an effective divisor of 27). -/
theorem c8_current_mean (reg : ℕ → ℕ) (divider : ℚ) (navg : ℕ) :
    get_current reg divider navg = rawMean reg navg / (10 * divider) ∧
    CURRENT_DIVIDER = 27 / 10 ∧ NAVG = 6 := by
  refine ⟨?_, rfl, rfl⟩
  unfold get_current rawMean
  rw [← Finset.sum_div, div_div, div_div, mul_comm (10 * divider) (navg : ℚ)]

/-- C9: immediately after a successful `set_pot(pot, wiper, value)`,
`get_pot(pot, wiper)` returns exactly `value`; `get_pot` emits no bus events
(no gate open/close, no device access) and reads only the cached state; and
all other cached wiper entries are unchanged by the `set_pot` call. -/
theorem c9_set_get_pot (addr : ℕ) (st : PotState) (pot wiper value : ℕ)
    (st' : PotState) (tr : List BusEv)
    (h1 : st.pot1.length = 4) (h2 : st.pot2.length = 4)
    (h : set_pot addr st pot wiper value = some (st', tr)) :
    get_pot st' pot wiper = some (value, []) ∧
    (∀ q u, q ≠ pot ∨ u ≠ wiper → get_pot st' q u = get_pot st q u) ∧
    (∀ s p w r, get_pot s p w = some r → r.2 = []) := by
  rw [set_pot] at h
  split at h
  case isFalse => simp at h
  case isTrue hcond =>
    obtain ⟨hw1, hw4, hpot, hv⟩ := hcond
    rw [Option.some.injEq, Prod.mk.injEq] at h
    obtain ⟨hst, -⟩ := h
    subst hst
    have frame3 : ∀ (s : PotState) (p w : ℕ) (r : ℕ × List BusEv),
        get_pot s p w = some r → r.2 = [] := by
      intro s p w r hr
      rw [get_pot] at hr
      split at hr
      · rw [Option.some.injEq] at hr
        subst hr
        rfl
      · simp at hr
    have hne_index : ∀ u : ℕ, 1 ≤ u → (u ≠ wiper) → wiper - 1 ≠ u - 1 := by
      intro u hu1 hne
      omega
    rcases hpot with hp | hp <;> subst hp
    · refine ⟨?_, ?_, frame3⟩
      · have hlen : wiper - 1 < st.pot1.length := by omega
        simp [get_pot, hw1, hw4, List.getElem?_set_eq_of_lt value hlen]
      · intro q u hne
        by_cases hg : 1 ≤ u ∧ u ≤ 4 ∧ (q = 1 ∨ q = 2)
        · obtain ⟨hu1, hu4, hq⟩ := hg
          rcases hq with hq | hq <;> subst hq
          · have huw : wiper - 1 ≠ u - 1 := by
              rcases hne with hne | hne
              · exact absurd rfl hne
              · exact hne_index u hu1 hne
            simp [get_pot, hu1, hu4, List.getElem?_set_ne huw]
          · simp [get_pot, hu1, hu4]
        · rw [get_pot, if_neg hg, get_pot, if_neg hg]
    · refine ⟨?_, ?_, frame3⟩
      · have hlen : wiper - 1 < st.pot2.length := by omega
        simp [get_pot, hw1, hw4, List.getElem?_set_eq_of_lt value hlen]
      · intro q u hne
        by_cases hg : 1 ≤ u ∧ u ≤ 4 ∧ (q = 1 ∨ q = 2)
        · obtain ⟨hu1, hu4, hq⟩ := hg
          rcases hq with hq | hq <;> subst hq
          · simp [get_pot, hu1, hu4]
          · have huw : wiper - 1 ≠ u - 1 := by
              rcases hne with hne | hne
              · exact absurd rfl hne
              · exact hne_index u hu1 hne
            simp [get_pot, hu1, hu4, List.getElem?_set_ne huw]
        · rw [get_pot, if_neg hg, get_pot, if_neg hg]

theorem c9_set_get_pot_witness :
    get_pot ⟨[0, 0, 0, 0], [0, 99, 0, 0]⟩ 2 2 = some (99, []) ∧
    get_pot ⟨[0, 0, 0, 0], [0, 99, 0, 0]⟩ 1 3 =
      get_pot ⟨[0, 0, 0, 0], [0, 0, 0, 0]⟩ 1 3 := by
  have h := c9_set_get_pot 1 ⟨[0, 0, 0, 0], [0, 0, 0, 0]⟩ 2 2 99
    ⟨[0, 0, 0, 0], [0, 99, 0, 0]⟩ (set_potTrace 1 2 2 99) rfl rfl (by decide)
  exact ⟨h.1, h.2.1 1 3 (Or.inl (by decide))⟩

theorem c2_iteration_bound_witness :
    (set_iLNA (fun _ => 1) 0 1 0 1).writes.length ≤ MAXITER + 1 ∧
    (set_iLNA (fun _ => 1) 0 1 0 1).reads ≤ MAXITER + 1 ∧
    (set_vLNA (fun _ => 1) 0 1 0 1).writes.length ≤ MAXITER + 1 ∧
    (set_vLNA (fun _ => 1) 0 1 0 1).reads ≤ MAXITER + 1 :=
  c2_iteration_bound (fun _ => 1) 0 1 0 1

theorem c4_persist_iff_not_fault_witness :
    ((set_iLNA (fun _ => 1) 0 1 7 1).saved = true ↔
      (set_iLNA (fun _ => 1) 0 1 7 1).outcome ≠ Outcome.fault) ∧
    ((set_vLNA (fun _ => 1) 0 1 7 1).saved = true ↔
      (set_vLNA (fun _ => 1) 0 1 7 1).outcome ≠ Outcome.fault) :=
  c4_persist_iff_not_fault (fun _ => 1) 0 1 7 1

theorem c6_zero_target_witness :
    set_iLNA (fun _ => 1) 5 3 77 0 =
      ⟨.zeroOff, set_ioexpander_pin 5 3 false, 0, [0], 0, true⟩ ∧
    set_vLNA (fun _ => 1) 5 3 77 0 =
      ⟨.zeroOff, set_ioexpander_pin 5 3 false, 0, [0], 0, true⟩ ∧
    (set_ioexpander_pin 5 3 false).testBit 3 = false :=
  c6_zero_target (fun _ => 1) 5 3 77

theorem c7_gate_discipline_witness :
    gatedOK (set_potTrace 1 2 3 100) = true ∧
    gatedOK (ina_getCurrent_rawTrace 1 4) = true ∧
    gatedOK (ina_getShuntVoltage_rawTrace 1 4) = true ∧
    gatedOK (ina_getCurrent_rawTrace 1 9) = false :=
  ⟨(c7_gate_discipline 1 2 3 100 5 4 false).1,
   ((c7_gate_discipline 1 2 3 100 5 4 false).2.2.2.1 (by decide) (by decide)).1,
   ((c7_gate_discipline 1 2 3 100 5 4 false).2.2.2.1 (by decide)
      (by decide)).2.2.1,
   ((c7_gate_discipline 1 2 3 100 5 9 false).2.2.2.2 (by decide)).1⟩

theorem c8_current_mean_witness :
    get_current (fun _ => 0) 2 6 = rawMean (fun _ => 0) 6 / (10 * 2) ∧
    CURRENT_DIVIDER = 27 / 10 ∧ NAVG = 6 :=
  c8_current_mean (fun _ => 0) 2 6

end AlpacaBias
